import Mathlib

/-!
Shallow embedding of the strategy-step library of the nfv repository
(src/nfv/nfv-vim/nfv_vim/strategy/_strategy_steps.py) and of the CLI entry
point (src/nfv/nfv-client/nfv_client/shell.py), together with proofs that
settle the frozen claims about the natural-language specification.

Conventions of the embedding:
* Python host objects become the `Host` structure; `is_locked()` is the
  `locked` field, `is_enabled()` is the `enabled` field and `is_disabled()`
  is its negation.
* Inventory tables become lists searched by `List.find?`, mirroring the
  `get(name, None)` dictionary accessors.
* Monotonic timestamps (`timers.get_monotonic_timestamp_in_ms()`) become
  `Nat` values in milliseconds; `// 1000` becomes `Nat` division.
* The host/instance director operations (module `nfv_vim.directors`, not part
  of the sources) are represented by an `OpResult` oracle passed to `apply`;
  the step code only inspects `is_inprogress()` / `is_failed()`.
-/

namespace Nfv

/-- Result protocol of a strategy step (`strategy.STRATEGY_STEP_RESULT`). -/
inductive StepResult where
  | success
  | failed
  | wait
deriving DecidableEq, Repr

/-- Outcome of a director operation handle: `is_inprogress()`, `is_failed()`
(with its `reason`), or synchronously completed. -/
inductive OpResult where
  | inprogress
  | failed (reason : String)
  | completed
deriving DecidableEq, Repr

/-- Host row of the inventory table.  `locked` is `is_locked()`, `enabled` is
`is_enabled()`; `is_disabled()` is `!enabled`. -/
structure Host where
  name : String
  uuid : String
  locked : Bool
  enabled : Bool
deriving DecidableEq, Repr

/-- Instance row of the inventory table.  `locked` is `is_locked()`,
`enabled` is `is_enabled()`; `is_disabled()` is `!enabled`. -/
structure Instance where
  uuid : String
  name : String
  hostName : String
  locked : Bool
  enabled : Bool
deriving DecidableEq, Repr

/-- `host_table.get(host_name, None)`: lookup of a host by name. -/
def tableGet (table : List Host) (name : String) : Option Host :=
  table.find? (fun h => h.name == name)

/-- `instance_table.get(instance_uuid, None)`: lookup of an instance by uuid. -/
def instTableGet (table : List Instance) (uuid : String) : Option Instance :=
  table.find? (fun i => i.uuid == uuid)

/-- `instance_table.on_host(host_name)`: all instances on the given host. -/
def instancesOnHost (table : List Instance) (hostName : String) : List Instance :=
  table.filter (fun i => i.hostName == hostName)

/-- `instance_table.exist_on_host(host_name)`. -/
def existOnHost (table : List Instance) (hostName : String) : Bool :=
  table.any (fun i => i.hostName == hostName)

/--
Common shape of the counting loops `_total_hosts_unlocked_enabled`,
`_total_hosts_locked` and `_total_instances_locked_disabled`: walk the
entity names, return `-1` as soon as an entity is missing from the table,
otherwise count the entities satisfying the predicate.
-/
def countOrMissing (get : String → Option α) (p : α → Bool) : List String → Int
  | [] => 0
  | n :: ns =>
    match get n with
    | none => -1
    | some x =>
      let rest := countOrMissing get p ns
      if rest == -1 then -1 else (if p x then 1 else 0) + rest

/-- `UnlockHostsStep._total_hosts_unlocked_enabled`. -/
def totalHostsUnlockedEnabled (table : List Host) (hostNames : List String) : Int :=
  countOrMissing (tableGet table) (fun h => !h.locked && h.enabled) hostNames

/-- `LockHostsStep._total_hosts_locked` (counts hosts that are locked, and
disabled as well when `wait_until_disabled` is set). -/
def totalHostsLocked (table : List Host) (waitUntilDisabled : Bool)
    (hostNames : List String) : Int :=
  countOrMissing (tableGet table)
    (fun h => h.locked && (!waitUntilDisabled || !h.enabled)) hostNames

/-- `StopInstancesStep._total_instances_locked_disabled`. -/
def totalInstancesLockedDisabled (table : List Instance)
    (instanceUuids : List String) : Int :=
  countOrMissing (instTableGet table) (fun i => i.locked && !i.enabled)
    instanceUuids

/-- `LockHostsStep._instances_not_locked_disabled`: names of instances on the
target hosts that are not locked and disabled. -/
def instancesNotLockedDisabled (instTable : List Instance) :
    List String → List String
  | [] => []
  | hn :: hns =>
    ((instancesOnHost instTable hn).filter
        (fun i => !(i.locked && !i.enabled))).map (fun i => i.name)
      ++ instancesNotLockedDisabled instTable hns

/-! ### Alarm filtering (QueryAlarmsStep / WaitDataSyncStep / WaitAlarmsClearStep) -/

/-- NFVI alarm as consumed by the alarm steps. -/
structure Alarm where
  alarm_id : String
  alarm_uuid : String
  mgmt_affecting : String
deriving DecidableEq, Repr

/--
The alarm filter common to `QueryAlarmsStep._query_alarms_callback`,
`WaitDataSyncStep._query_alarms_callback` and
`WaitAlarmsClearStep._query_alarms_callback`: an alarm is skipped when the
restriction is relaxed and `mgmt_affecting == 'False'`; otherwise it is kept
unless its id is in the ignore list.
-/
def filterAlarms (relaxed : Bool) (ignoreAlarms : List String) :
    List Alarm → List Alarm
  | [] => []
  | a :: rest =>
    if relaxed && a.mgmt_affecting == "False" then
      filterAlarms relaxed ignoreAlarms rest
    else if !(ignoreAlarms.contains a.alarm_id) then
      a :: filterAlarms relaxed ignoreAlarms rest
    else
      filterAlarms relaxed ignoreAlarms rest

/-- Terminal decision of `QueryAlarmsStep._query_alarms_callback` on a
completed response: fail when `fail_on_alarms` is set and the residual alarm
list is non-empty, succeed otherwise. -/
def queryAlarmsOutcome (failOnAlarms : Bool) (residual : List Alarm) :
    StepResult :=
  if failOnAlarms && !residual.isEmpty then StepResult.failed
  else StepResult.success

/-! ### UnlockHostsStep -/

/-- `UnlockHostsStep.RETRY_DELAY`. -/
def UNLOCK_RETRY_DELAY : Nat := 120

/-- Lookup in the `_retries` dictionary (defaults to 0 for a key that was
never inserted; the step only probes keys of its own host list, which are
always present). -/
def lookupRetry (retries : List (String × Nat)) (name : String) : Nat :=
  match retries.find? (fun p => p.1 == name) with
  | some p => p.2
  | none => 0

/-- `self._retries[host_name] = self._retries[host_name] - 1`. -/
def decRetry (retries : List (String × Nat)) (name : String) :
    List (String × Nat) :=
  retries.map (fun p => if p.1 == name then (p.1, p.2 - 1) else p)

/-- Mutable state of an `UnlockHostsStep`: the serialized knobs
(`_host_names`, `_host_uuids`, `_retry_count`, `_retry_delay`) and the
non-persisted scratch (`_retries`, `_wait_time`, `_retry_requested`). -/
structure UnlockState where
  hostNames : List String
  hostUuids : List String
  retryCount : Nat
  retryDelay : Nat
  retries : List (String × Nat)
  waitTime : Nat
  retryRequested : Bool
deriving DecidableEq, Repr

/-- `UnlockHostsStep.__init__(hosts, retry_count, retry_delay)`. -/
def unlockInit (hosts : List Host) (retryCount : Nat) (retryDelay : Nat) :
    UnlockState :=
  { hostNames := hosts.map (fun h => h.name)
    hostUuids := hosts.map (fun h => h.uuid)
    retryCount := retryCount
    retryDelay := retryDelay
    retries := hosts.map (fun h => (h.name, retryCount))
    waitTime := 0
    retryRequested := false }

/-- `UnlockHostsStep._trigger_retry(host_name)`: request a retry, reset the
retry wait clock to the current monotonic time and decrement the failed
host's remaining retries. -/
def unlockTriggerRetry (s : UnlockState) (hostName : String) (now : Nat) :
    UnlockState :=
  { s with
    retryRequested := true
    waitTime := now
    retries := decRetry s.retries hostName }

/-- `UnlockHostsStep.apply`: immediate success when every target host is
already unlocked and enabled, otherwise one `unlock_hosts` director call
whose outcome is the `op` oracle.  The `Bool` component records whether the
director was invoked. -/
def unlockApply (s : UnlockState) (table : List Host) (op : OpResult) :
    Bool × StepResult × String :=
  if ((s.hostNames.length : Int) == totalHostsUnlockedEnabled table s.hostNames) then
    (false, StepResult.success, "")
  else
    match op with
    | OpResult.inprogress => (true, StepResult.wait, "")
    | OpResult.failed r => (true, StepResult.failed, r)
    | OpResult.completed => (true, StepResult.success, "")

/-- Events dispatched to `UnlockHostsStep.handle_event`.  The audit-like
events carry the monotonic time, the host-table snapshot, and the outcome of
a retry `unlock_hosts` call should one be issued; `HOST_UNLOCK_FAILED`
carries its monotonic time and the host object of the event data. -/
inductive UnlockEvent where
  | hostStateChanged (now : Nat) (table : List Host) (opFailed : Bool)
  | hostAudit (now : Nat) (table : List Host) (opFailed : Bool)
  | hostUnlockFailed (now : Nat) (eventHost : Option Host)
deriving Repr

/-- Body shared by the `HOST_STATE_CHANGED` / `HOST_AUDIT` branch of
`UnlockHostsStep.handle_event`.  Returns the new state, whether a retry
`unlock_hosts` director call was issued, and any `step_complete` decision. -/
def unlockAuditBody (s : UnlockState) (now : Nat) (table : List Host)
    (opFailed : Bool) : UnlockState × Bool × Option (StepResult × String) :=
  let totalHostsEnabled := totalHostsUnlockedEnabled table s.hostNames
  if totalHostsEnabled == -1 then
    (s, false, some (StepResult.failed, "host no longer exists"))
  else if totalHostsEnabled == (s.hostNames.length : Int) then
    (s, false, some (StepResult.success, ""))
  else if s.retryRequested then
    let secsExpired := (now - s.waitTime) / 1000
    if s.retryDelay ≤ secsExpired then
      let s := { s with retryRequested := false }
      if opFailed then
        (s, true, some (StepResult.failed, "host unlock failed"))
      else
        (s, true, none)
    else
      (s, false, none)
  else
    (s, false, none)

/-- `UnlockHostsStep.handle_event`. -/
def unlockHandleEvent (s : UnlockState) (e : UnlockEvent) :
    UnlockState × Bool × Option (StepResult × String) :=
  match e with
  | UnlockEvent.hostStateChanged now table opFailed =>
    unlockAuditBody s now table opFailed
  | UnlockEvent.hostAudit now table opFailed =>
    unlockAuditBody s now table opFailed
  | UnlockEvent.hostUnlockFailed now eventHost =>
    match eventHost with
    | some host =>
      if s.hostNames.contains host.name then
        if host.locked && decide (0 < lookupRetry s.retries host.name) then
          (unlockTriggerRetry s host.name now, false, none)
        else
          (s, false, some (StepResult.failed, "host unlock failed"))
      else
        (s, false, none)
    | none => (s, false, none)

/-- Number of `unlock_hosts` director invocations issued by
`handle_event` over an event sequence.  Every invocation passes the full
`_host_names` list, so for any target host this is also the number of unlock
invocations naming that host. -/
def unlockRunCount (s : UnlockState) : List UnlockEvent → Nat
  | [] => 0
  | e :: es =>
    let r := unlockHandleEvent s e
    (if r.2.1 then 1 else 0) + unlockRunCount r.1 es

/-- Sum of the remaining retry budgets of the `_retries` dictionary. -/
def sumRetries (retries : List (String × Nat)) : Nat :=
  (retries.map Prod.snd).sum

/-! ### UnlockHostsStep serialization -/

/-- Serialized dictionary of an `UnlockHostsStep` (the fields the claims
depend on).  `retry_count` and `retry_delay` are optional on read because
`from_dict` uses `data.get` with a default. -/
structure UnlockStepData where
  entityNames : List String
  entityUuids : List String
  retry_count : Option Nat
  retry_delay : Option Nat
deriving DecidableEq, Repr

/-- `UnlockHostsStep.as_dict`: serializes names, uuids, `retry_count` and
`retry_delay`; `_retries`, `_wait_time` and `_retry_requested` are not
serialized. -/
def unlockAsDict (s : UnlockState) : UnlockStepData :=
  { entityNames := s.hostNames
    entityUuids := s.hostUuids
    retry_count := some s.retryCount
    retry_delay := some s.retryDelay }

/-- Resolve a list of entity names against the host table, dropping names
that no longer resolve (loop shared by the hosts-step `from_dict` methods). -/
def resolveHosts (table : List Host) : List String → List Host
  | [] => []
  | n :: ns =>
    match tableGet table n with
    | some h => h :: resolveHosts table ns
    | none => resolveHosts table ns

/-- `UnlockHostsStep.from_dict`: restores the host names, re-resolves uuids
against the live table, reads `retry_count` / `retry_delay` with defaults,
and resets the non-persisted scratch, giving every still-resolvable host the
full `retry_count` budget again. -/
def unlockFromDict (table : List Host) (d : UnlockStepData) : UnlockState :=
  let retryCount := d.retry_count.getD 0
  { hostNames := d.entityNames
    hostUuids := (resolveHosts table d.entityNames).map (fun h => h.uuid)
    retryCount := retryCount
    retryDelay := d.retry_delay.getD UNLOCK_RETRY_DELAY
    retries := (resolveHosts table d.entityNames).map (fun h => (h.name, retryCount))
    waitTime := 0
    retryRequested := false }

/-! ### LockHostsStep -/

/-- Mutable state of a `LockHostsStep`. -/
structure LockState where
  hostNames : List String
  hostUuids : List String
  waitUntilDisabled : Bool
  waitTime : Nat
deriving DecidableEq, Repr

/-- `LockHostsStep.__init__(hosts, wait_until_disabled)`. -/
def lockInit (hosts : List Host) (waitUntilDisabled : Bool) : LockState :=
  { hostNames := hosts.map (fun h => h.name)
    hostUuids := hosts.map (fun h => h.uuid)
    waitUntilDisabled := waitUntilDisabled
    waitTime := 0 }

/-- `','.join(names)`. -/
def joinComma : List String → String
  | [] => ""
  | [s] => s
  | s :: rest => s ++ "," ++ joinComma rest

/-- `LockHostsStep.apply`: immediate success when every target is already
locked (and disabled when required); otherwise refuse when an instance on a
target host is not locked and disabled; otherwise one `lock_hosts` director
call with outcome `op`.  The `Bool` component records whether the director
was invoked. -/
def lockApply (s : LockState) (table : List Host) (instTable : List Instance)
    (op : OpResult) : Bool × StepResult × String :=
  if ((s.hostNames.length : Int) ==
      totalHostsLocked table s.waitUntilDisabled s.hostNames) then
    (false, StepResult.success, "")
  else
    let instances := instancesNotLockedDisabled instTable s.hostNames
    if !instances.isEmpty then
      (false, StepResult.failed,
        "Lock of host(s) " ++ joinComma s.hostNames ++
        " failed because instance(s) " ++ joinComma instances ++
        " were not migrated or stopped.")
    else
      match op with
      | OpResult.inprogress => (true, StepResult.wait, "")
      | OpResult.failed r => (true, StepResult.failed, r)
      | OpResult.completed => (true, StepResult.success, "")

/-- Events dispatched to `LockHostsStep.handle_event` (each tagged with the
monotonic time at which it is delivered; `handle_event` reads the clock only
in the audit-like branch). -/
inductive LockEvent where
  | hostStateChanged (now : Nat) (table : List Host)
  | hostAudit (now : Nat) (table : List Host)
  | hostLockFailed (now : Nat) (eventHost : Option Host)
deriving Repr

/-- Monotonic time at which a lock event is delivered. -/
def LockEvent.time : LockEvent → Nat
  | LockEvent.hostStateChanged now _ => now
  | LockEvent.hostAudit now _ => now
  | LockEvent.hostLockFailed now _ => now

/-- Whether a lock event is one of the `HOST_STATE_CHANGED` / `HOST_AUDIT`
pair that drives completion. -/
def LockEvent.isAuditLike : LockEvent → Bool
  | LockEvent.hostStateChanged _ _ => true
  | LockEvent.hostAudit _ _ => true
  | LockEvent.hostLockFailed _ _ => false

/-- Host-table snapshot read by a lock event (empty for the targeted
failure event, which never reads the table). -/
def LockEvent.snapshot : LockEvent → List Host
  | LockEvent.hostStateChanged _ table => table
  | LockEvent.hostAudit _ table => table
  | LockEvent.hostLockFailed _ _ => []

/-- Body shared by the `HOST_STATE_CHANGED` / `HOST_AUDIT` branch of
`LockHostsStep.handle_event`: fail when a host vanished; when not waiting
for disabled, start a 15-second clock on the first such event and bail out
until more than 15 seconds have expired; then succeed once every target is
locked (and disabled when required). -/
def lockAuditBody (s : LockState) (now : Nat) (table : List Host) :
    LockState × Option (StepResult × String) :=
  let totalLocked := totalHostsLocked table s.waitUntilDisabled s.hostNames
  if totalLocked == -1 then
    (s, some (StepResult.failed, "host no longer exists"))
  else
    let s := if !s.waitUntilDisabled && s.waitTime == 0 then
      { s with waitTime := now } else s
    if !s.waitUntilDisabled && decide ((now - s.waitTime) / 1000 ≤ 15) then
      (s, none)
    else if totalLocked == (s.hostNames.length : Int) then
      (s, some (StepResult.success, ""))
    else
      (s, none)

/-- `LockHostsStep.handle_event`. -/
def lockHandleEvent (s : LockState) (e : LockEvent) :
    LockState × Option (StepResult × String) :=
  match e with
  | LockEvent.hostStateChanged now table => lockAuditBody s now table
  | LockEvent.hostAudit now table => lockAuditBody s now table
  | LockEvent.hostLockFailed _ eventHost =>
    match eventHost with
    | some host =>
      if s.hostNames.contains host.name then
        (s, some (StepResult.failed, "host lock failed"))
      else
        (s, none)
    | none => (s, none)

/-- Drive `LockHostsStep.handle_event` over an event sequence until the step
makes a terminal decision, returning the decision together with the
monotonic time of the event that produced it. -/
def lockRun (s : LockState) : List LockEvent → Option (StepResult × String × Nat)
  | [] => none
  | e :: es =>
    match lockHandleEvent s e with
    | (_, some (r, msg)) => some (r, msg, e.time)
    | (s, none) => lockRun s es

/-- Time of the first `HOST_STATE_CHANGED` / `HOST_AUDIT` event of a
sequence. -/
def firstAuditTime : List LockEvent → Option Nat
  | [] => none
  | e :: es => if e.isAuditLike then some e.time else firstAuditTime es

/-! ### MigrateInstancesStep / StopInstancesStep / StartInstancesStep -/

/-- Lookup in the `_instance_host_names` dictionary (uuid to the host name
captured at step creation). -/
def lookupCaptured (captured : List (String × String)) (uuid : String) : String :=
  match captured.find? (fun p => p.1 == uuid) with
  | some p => p.2
  | none => ""

/-- Mutable state of a `MigrateInstancesStep` (also the instance-holding part
of `StopInstancesStep`): `_instances` are the live instance objects the step
holds, `_instance_host_names` maps each uuid to the host captured at step
creation. -/
structure MigrateState where
  instances : List Instance
  instanceNames : List String
  instanceUuids : List String
  instanceHostNames : List (String × String)
deriving DecidableEq, Repr

/-- `MigrateInstancesStep.__init__(instances)` (and the identical capture in
`StopInstancesStep.__init__`). -/
def migrateInit (instances : List Instance) : MigrateState :=
  { instances := instances
    instanceNames := instances.map (fun i => i.name)
    instanceUuids := instances.map (fun i => i.uuid)
    instanceHostNames := instances.map (fun i => (i.uuid, i.hostName)) }

/-- Source-host list of `MigrateInstancesStep._all_instances_migrated`: the
captured host names with duplicates removed, in first-seen order. -/
def sourceHostNames (captured : List (String × String)) : List String :=
  captured.foldl
    (fun acc p => if acc.contains p.2 then acc else acc ++ [p.2]) []

/-- `MigrateInstancesStep._all_instances_migrated`: true when no instance
remains on any captured source host (the reason component is always empty in
the source). -/
def allInstancesMigrated (instTable : List Instance)
    (captured : List (String × String)) : Bool :=
  (sourceHostNames captured).all (fun hn => !existOnHost instTable hn)

/-- The moved-instance scan shared by `MigrateInstancesStep.apply` and
`StopInstancesStep.apply`: the first held instance whose current host is not
the captured one, with that captured host name. -/
def findMoved (captured : List (String × String)) :
    List Instance → Option (Instance × String)
  | [] => none
  | i :: rest =>
    if i.hostName ≠ lookupCaptured captured i.uuid then
      some (i, lookupCaptured captured i.uuid)
    else
      findMoved captured rest

/-- Failure reason emitted for a moved instance. -/
def movedReason (i : Instance) (capturedHost : String) : String :=
  "instance " ++ i.name ++ " has moved from " ++ capturedHost ++ " to " ++
    i.hostName ++ " after strategy created"

/-- `MigrateInstancesStep.apply`: immediate success when every captured
source host already holds no instances; otherwise fail if a held instance
has moved since the step was created; otherwise one `migrate_instances`
director call with outcome `op`.  The `Bool` component records whether the
director was invoked. -/
def migrateApply (s : MigrateState) (instTable : List Instance)
    (op : OpResult) : Bool × StepResult × String :=
  if allInstancesMigrated instTable s.instanceHostNames then
    (false, StepResult.success, "")
  else
    match findMoved s.instanceHostNames s.instances with
    | some (i, capturedHost) =>
      (false, StepResult.failed, movedReason i capturedHost)
    | none =>
      match op with
      | OpResult.inprogress => (true, StepResult.wait, "")
      | OpResult.failed r => (true, StepResult.failed, r)
      | OpResult.completed => (true, StepResult.success, "")

/-- `StopInstancesStep.apply`: immediate success when every target instance
is already locked and disabled; otherwise fail if a held instance has moved;
otherwise one `stop_instances` director call with outcome `op`. -/
def stopApply (s : MigrateState) (instTable : List Instance) (op : OpResult) :
    Bool × StepResult × String :=
  if ((s.instanceUuids.length : Int) ==
      totalInstancesLockedDisabled instTable s.instanceUuids) then
    (false, StepResult.success, "")
  else
    match findMoved s.instanceHostNames s.instances with
    | some (i, capturedHost) =>
      (false, StepResult.failed, movedReason i capturedHost)
    | none =>
      match op with
      | OpResult.inprogress => (true, StepResult.wait, "")
      | OpResult.failed r => (true, StepResult.failed, r)
      | OpResult.completed => (true, StepResult.success, "")

/-! ### Serialization of hosts-based and instances-based steps -/

/-- Serialized entity fields shared by every step
(`entity_names`, `entity_uuids`). -/
structure HostsStepData where
  entityNames : List String
  entityUuids : List String
deriving DecidableEq, Repr

/-- Live-entity part restored by `AbstractHostsStrategyStep.from_dict`. -/
structure HostsFromDict where
  hostNames : List String
  hosts : List Host
  hostUuids : List String
deriving DecidableEq, Repr

/-- `AbstractHostsStrategyStep.from_dict` (the same re-resolution loop is
repeated verbatim in `LockHostsStep`, `RebootHostsStep`, `SwactHostsStep`,
`FwUpdateHostsStep`, ... `from_dict`): the name list is taken from the data
unchanged, the live host list and the uuid list are rebuilt from the hosts
still present in the table. -/
def hostsFromDict (table : List Host) (d : HostsStepData) : HostsFromDict :=
  { hostNames := d.entityNames
    hosts := resolveHosts table d.entityNames
    hostUuids := (resolveHosts table d.entityNames).map (fun h => h.uuid) }

/-- Serialized dictionary of a `MigrateInstancesStep`. -/
structure MigrateStepData where
  entityNames : List String
  entityUuids : List String
  instance_host_names : List (String × String)
deriving DecidableEq, Repr

/-- `MigrateInstancesStep.as_dict`. -/
def migrateAsDict (s : MigrateState) : MigrateStepData :=
  { entityNames := s.instanceNames
    entityUuids := s.instanceUuids
    instance_host_names := s.instanceHostNames }

/-- Resolve a list of instance uuids against the instance table, dropping
uuids that no longer resolve. -/
def resolveInstances (instTable : List Instance) : List String → List Instance
  | [] => []
  | u :: us =>
    match instTableGet instTable u with
    | some i => i :: resolveInstances instTable us
    | none => resolveInstances instTable us

/-- `MigrateInstancesStep.from_dict`: the uuid list is taken from the data
unchanged; the live instance list, the name list and the captured-host map
are rebuilt only from the instances still present in the table. -/
def migrateFromDict (instTable : List Instance) (d : MigrateStepData) :
    MigrateState :=
  { instances := resolveInstances instTable d.entityUuids
    instanceNames := (resolveInstances instTable d.entityUuids).map (fun i => i.name)
    instanceUuids := d.entityUuids
    instanceHostNames := (resolveInstances instTable d.entityUuids).map
      (fun i => (i.uuid, lookupCaptured d.instance_host_names i.uuid)) }

/-! ### FwUpdateHostsStep -/

/-- The `FW_UPDATE_LABEL.DEVICE_IMAGE_UPDATE_*` constants (defined in
`_strategy_defs`, compared by the step as opaque labels). -/
inductive DeviceImageUpdate where
  | pending
  | inProgress
  | inProgressAborted
  | completedLabel
  | failedLabel
  | nullLabel
  | unknown (s : String)
deriving DecidableEq, Repr

/-- Per-host progress entry of `_host_completed`:
`(done, success, reason)`. -/
structure FwHostStatus where
  done : Bool
  success : Bool
  reason : String
deriving DecidableEq, Repr

/-- Mutable state of a `FwUpdateHostsStep` (the parts the claims depend on). -/
structure FwState where
  hosts : List Host
  hostNames : List String
  hostCompleted : List (String × FwHostStatus)
deriving DecidableEq, Repr

/-- `FwUpdateHostsStep.__init__(hosts)`. -/
def fwInit (hosts : List Host) : FwState :=
  { hosts := hosts
    hostNames := hosts.map (fun h => h.name)
    hostCompleted := hosts.map (fun h => (h.name, ⟨false, false, ""⟩)) }

/-- Lookup in the `_host_completed` dictionary. -/
def fwStatus (s : FwState) (hostName : String) : FwHostStatus :=
  match s.hostCompleted.find? (fun p => p.1 == hostName) with
  | some p => p.2
  | none => ⟨false, false, ""⟩

/-- `self._host_completed[hostname] = entry`. -/
def fwSetStatus (s : FwState) (hostName : String) (entry : FwHostStatus) :
    FwState :=
  { s with
    hostCompleted :=
      s.hostCompleted.map (fun p => if p.1 == hostName then (p.1, entry) else p) }

/-- `FwUpdateHostsStep._check_step_complete`: collect the sentinel string of
failed hosts while checking that every host is done; when all are done,
succeed when no host failed, otherwise fail naming the failed hosts. -/
def fwCheckStepComplete (s : FwState) : Option (StepResult × String) :=
  let failedHosts := s.hostNames.foldl
    (fun acc hn =>
      if (fwStatus s hn).done == false then acc
      else if (fwStatus s hn).success == false then acc ++ hn ++ " "
      else acc) ""
  let done := s.hostNames.all (fun hn => (fwStatus s hn).done)
  if done then
    if failedHosts.length == 0 then
      some (StepResult.success, "")
    else
      some (StepResult.failed, "Firmware update failed ; " ++ failedHosts)
  else
    none

/-- Status-recording case ladder of `FwUpdateHostsStep._get_host_callback`
for a completed get-host response that carries a hostname: mark the host
done (and failed/succeeded) per the reported `device_image_update` state,
then run the step-completion check. -/
def fwGetHostCallback (s : FwState) (hostname : String)
    (diu : Option DeviceImageUpdate) :
    FwState × Option (StepResult × String) :=
  let s :=
    match diu with
    | none => s
    | some DeviceImageUpdate.pending =>
      if (fwStatus s hostname).done == false then
        fwSetStatus s hostname
          ⟨true, false, hostname ++ " firmware update failed ; needs retry"⟩
      else s
    | some DeviceImageUpdate.inProgress => s
    | some DeviceImageUpdate.inProgressAborted =>
      if (fwStatus s hostname).done == false then
        fwSetStatus s hostname
          ⟨true, false, hostname ++ " firmware update aborted while in progress"⟩
      else s
    | some DeviceImageUpdate.completedLabel =>
      if (fwStatus s hostname).done == false then
        fwSetStatus s hostname ⟨true, true, ""⟩
      else s
    | some DeviceImageUpdate.nullLabel =>
      if (fwStatus s hostname).done == false then
        fwSetStatus s hostname ⟨true, true, ""⟩
      else s
    | some DeviceImageUpdate.failedLabel =>
      if (fwStatus s hostname).done == false then
        fwSetStatus s hostname ⟨true, false, hostname ++ " firmware update failed"⟩
      else s
    | some (DeviceImageUpdate.unknown label) =>
      if (fwStatus s hostname).done == false then
        fwSetStatus s hostname
          ⟨true, false,
            hostname ++ " firmware update failed ; unknown state [" ++ label ++ "]"⟩
      else s
  (s, fwCheckStepComplete s)

/-- `HOST_FW_UPDATE_FAILED` branch of `FwUpdateHostsStep.handle_event`: a
targeted failure event completes the step FAILED without touching the
per-host completion map. -/
def fwHandleUpdateFailed (s : FwState) (eventHost : Option Host) :
    FwState × Option (StepResult × String) :=
  match eventHost with
  | some host =>
    if s.hostNames.contains host.name then
      (s, some (StepResult.failed, "fw image update failed"))
    else
      (s, none)
  | none => (s, none)

/-- `FwUpdateHostsStep.abort`: the abort step is built from the hosts whose
completion entry is not yet done. -/
def fwAbortHosts (s : FwState) : List Host :=
  s.hosts.filter (fun h => (fwStatus s h.name).done == false)

/-! ### DisableHostServicesStep / EnableHostServicesStep -/

/-- `objects.HOST_SERVICE_STATE` values consumed by the host-services
steps. -/
inductive HostServiceState where
  | enabled
  | disabled
  | other (label : String)
deriving DecidableEq, Repr

/-- State of a `DisableHostServicesStep` / `EnableHostServicesStep`: the
target hosts and the targeted service. -/
structure HostServicesState where
  hostNames : List String
  hostUuids : List String
  service : String
deriving DecidableEq, Repr

/-- `DisableHostServicesStep.__init__(hosts, service)` (and the identical
capture in `EnableHostServicesStep.__init__`). -/
def hostServicesInit (hosts : List Host) (service : String) :
    HostServicesState :=
  { hostNames := hosts.map (fun h => h.name)
    hostUuids := hosts.map (fun h => h.uuid)
    service := service }

/-- `DisableHostServicesStep._total_hosts_services_disabled`; `svcState`
models the per-host `host.host_service_state(service)` accessor. -/
def totalHostsServicesDisabled (table : List Host)
    (svcState : String → String → HostServiceState) (service : String)
    (hostNames : List String) : Int :=
  countOrMissing (tableGet table)
    (fun h => decide (svcState h.name service = HostServiceState.disabled))
    hostNames

/-- `EnableHostServicesStep._total_hosts_services_enabled`. -/
def totalHostsServicesEnabled (table : List Host)
    (svcState : String → String → HostServiceState) (service : String)
    (hostNames : List String) : Int :=
  countOrMissing (tableGet table)
    (fun h => decide (svcState h.name service = HostServiceState.enabled))
    hostNames

/-- `DisableHostServicesStep.apply`: unconditionally invokes the
`disable_host_services` director verb — the source has no already-satisfied
early exit and never consults the host table here — and maps the operation
outcome.  The `Bool` component records that the director was invoked. -/
def disableHostServicesApply (s : HostServicesState) (op : OpResult) :
    Bool × StepResult × String :=
  match op with
  | OpResult.inprogress => (true, StepResult.wait, "")
  | OpResult.failed r => (true, StepResult.failed, r)
  | OpResult.completed => (true, StepResult.success, "")

/-- `EnableHostServicesStep.apply`: likewise unconditionally invokes the
`enable_host_services` director verb. -/
def enableHostServicesApply (s : HostServicesState) (op : OpResult) :
    Bool × StepResult × String :=
  match op with
  | OpResult.inprogress => (true, StepResult.wait, "")
  | OpResult.failed r => (true, StepResult.failed, r)
  | OpResult.completed => (true, StepResult.success, "")

/-- `HOST_STATE_CHANGED` / `HOST_AUDIT` branch of
`DisableHostServicesStep.handle_event`: fail when a host vanished, succeed
once every target reports the service disabled. -/
def disableHostServicesAuditBody (s : HostServicesState) (table : List Host)
    (svcState : String → String → HostServiceState) :
    Option (StepResult × String) :=
  let total := totalHostsServicesDisabled table svcState s.service s.hostNames
  if total == -1 then some (StepResult.failed, "host no longer exists")
  else if total == (s.hostNames.length : Int) then
    some (StepResult.success, "")
  else none

/-! ### CLI entry point (nfv_client/shell.py process_main) -/

/-- The OpenStack credential options of `process_main`, each either given on
the command line or absent. -/
structure CliArgs where
  osAuthUrl : Option String
  osProjectName : Option String
  osProjectDomainName : Option String
  osUsername : Option String
  osPassword : Option String
  osUserDomainName : Option String
  osRegionName : Option String
  osInterface : Option String
deriving DecidableEq, Repr

/-- A `CliArgs` with every option absent. -/
def CliArgs.none : CliArgs :=
  ⟨Option.none, Option.none, Option.none, Option.none,
   Option.none, Option.none, Option.none, Option.none⟩

/-- `args.x = os.environ.get('X', None) if args.x is None`. -/
def mergeOpt (arg env : Option String) : Option String :=
  match arg with
  | some v => some v
  | Option.none => env

/-- The credential merge block of `process_main`. -/
def mergeArgs (args env : CliArgs) : CliArgs :=
  { osAuthUrl := mergeOpt args.osAuthUrl env.osAuthUrl
    osProjectName := mergeOpt args.osProjectName env.osProjectName
    osProjectDomainName := mergeOpt args.osProjectDomainName env.osProjectDomainName
    osUsername := mergeOpt args.osUsername env.osUsername
    osPassword := mergeOpt args.osPassword env.osPassword
    osUserDomainName := mergeOpt args.osUserDomainName env.osUserDomainName
    osRegionName := mergeOpt args.osRegionName env.osRegionName
    osInterface := mergeOpt args.osInterface env.osInterface }

/-- Outcome of dispatching the selected sw_update command inside the `try`
block: normal return, an exception with its message, or a keyboard
interrupt. -/
inductive CmdOutcome where
  | ok
  | raises (msg : String)
  | interrupt
deriving DecidableEq, Repr

/-- `process_main`: merge the credential options with the environment; a
missing credential prints a notice and returns (the process then exits with
status 0); otherwise the dispatched command runs, where an exception prints
its message and exits with status 1 and a keyboard interrupt prints a notice
and returns (status 0).  Result: `(exit status, printed lines)`. -/
def processMain (args env : CliArgs) (outcome : CmdOutcome) :
    Nat × List String :=
  let a := mergeArgs args env
  if a.osAuthUrl.isNone then (0, ["Authentication URI not given"])
  else if a.osProjectName.isNone then (0, ["Project name not given"])
  else if a.osProjectDomainName.isNone then (0, ["Project domain name not given"])
  else if a.osUsername.isNone then (0, ["Username not given"])
  else if a.osPassword.isNone then (0, ["User password not given"])
  else if a.osUserDomainName.isNone then (0, ["User domain name not given"])
  else if a.osRegionName.isNone then (0, ["Openstack region name not given"])
  else if a.osInterface.isNone then (0, ["Openstack interface not given"])
  else
    match outcome with
    | CmdOutcome.ok => (0, [])
    | CmdOutcome.raises msg => (1, [msg])
    | CmdOutcome.interrupt => (0, ["Keyboard Interrupt received."])

/-! ## Helper lemmas -/

theorem countOrMissing_neg_one_le {α : Type} (get : String → Option α)
    (p : α → Bool) : ∀ ns : List String, -1 ≤ countOrMissing get p ns
  | [] => by simp [countOrMissing]
  | n :: ns => by
    have ih := countOrMissing_neg_one_le get p ns
    simp only [countOrMissing]
    cases hget : get n with
    | none => simp
    | some x =>
      simp only
      split
      · omega
      · split <;> omega

theorem countOrMissing_le_length {α : Type} (get : String → Option α)
    (p : α → Bool) :
    ∀ ns : List String, countOrMissing get p ns ≤ (ns.length : Int)
  | [] => by simp [countOrMissing]
  | n :: ns => by
    have ih := countOrMissing_le_length get p ns
    simp only [countOrMissing, List.length_cons]
    cases hget : get n with
    | none => push_cast; omega
    | some x =>
      simp only
      split
      · push_cast; omega
      · split <;> push_cast <;> omega

theorem countOrMissing_eq_length {α : Type} (get : String → Option α)
    (p : α → Bool) :
    ∀ ns : List String, countOrMissing get p ns = (ns.length : Int) →
      ∀ n ∈ ns, ∃ x, get n = some x ∧ p x = true
  | [] => by intro _ n hn; simp at hn
  | n :: ns => by
    intro h m hm
    have hle := countOrMissing_le_length get p ns
    simp only [countOrMissing, List.length_cons] at h
    cases hget : get n with
    | none => rw [hget] at h; simp at h; omega
    | some x =>
      rw [hget] at h
      simp only at h
      rcases Decidable.em (countOrMissing get p ns = -1) with hrest | hrest
      · simp [hrest] at h; omega
      · rw [if_neg (by simpa using hrest)] at h
        have hpx : (if p x then (1 : Int) else 0) ≤ 1 := by split <;> omega
        have hrest_eq : countOrMissing get p ns = (ns.length : Int) := by
          rcases Decidable.em (p x) with hp | hp
          · rw [if_pos hp] at h; omega
          · rw [if_neg hp] at h
            exfalso
            have : countOrMissing get p ns = (ns.length : Int) + 1 := by omega
            omega
        rcases hm with _ | hm'
        · refine ⟨x, hget, ?_⟩
          by_contra hp
          rw [if_neg (by simpa using hp)] at h
          omega
        · exact countOrMissing_eq_length get p ns hrest_eq m (by assumption)

theorem countOrMissing_eq_length_of {α : Type} (get : String → Option α)
    (p : α → Bool) :
    ∀ ns : List String, (∀ n ∈ ns, ∃ x, get n = some x ∧ p x = true) →
      countOrMissing get p ns = (ns.length : Int)
  | [] => by intro _; simp [countOrMissing]
  | n :: ns => by
    intro h
    obtain ⟨x, hget, hpx⟩ := h n (by simp)
    have ih := countOrMissing_eq_length_of get p ns
      (fun m hm => h m (by simp [hm]))
    simp [countOrMissing, hget, ih, hpx]
    omega

theorem resolveHosts_eq_filterMap (table : List Host) :
    ∀ ns : List String, resolveHosts table ns = ns.filterMap (tableGet table)
  | [] => by simp [resolveHosts]
  | n :: ns => by
    have ih := resolveHosts_eq_filterMap table ns
    cases hget : tableGet table n <;>
      simp [resolveHosts, hget, ih, List.filterMap_cons]

theorem resolveInstances_eq_filterMap (instTable : List Instance) :
    ∀ us : List String,
      resolveInstances instTable us = us.filterMap (instTableGet instTable)
  | [] => by simp [resolveInstances]
  | u :: us => by
    have ih := resolveInstances_eq_filterMap instTable us
    cases hget : instTableGet instTable u <;>
      simp [resolveInstances, hget, ih, List.filterMap_cons]

theorem tableGet_name (table : List Host) (n : String) (h : Host)
    (hget : tableGet table n = some h) : h.name = n := by
  have := List.find?_some hget
  simpa using this

theorem mem_filterAlarms_relaxed (ignoreAlarms : List String) :
    ∀ (alarms : List Alarm) (a : Alarm),
      a ∈ filterAlarms true ignoreAlarms alarms → a.mgmt_affecting ≠ "False"
  | [], a => by simp [filterAlarms]
  | b :: rest, a => by
    intro hmem
    by_cases hb : b.mgmt_affecting = "False"
    · rw [filterAlarms, if_pos (by simp [hb])] at hmem
      exact mem_filterAlarms_relaxed ignoreAlarms rest a hmem
    · rw [filterAlarms, if_neg (by simp [hb])] at hmem
      cases hig : ignoreAlarms.contains b.alarm_id with
      | true =>
        rw [hig] at hmem
        simp only [Bool.not_true] at hmem
        rw [if_neg (by simp)] at hmem
        exact mem_filterAlarms_relaxed ignoreAlarms rest a hmem
      | false =>
        rw [hig] at hmem
        simp only [Bool.not_false] at hmem
        rw [if_pos trivial] at hmem
        rcases List.mem_cons.mp hmem with h | h
        · subst h; exact hb
        · exact mem_filterAlarms_relaxed ignoreAlarms rest a h

theorem filterAlarms_drop_false (ignoreAlarms : List String) (a : Alarm)
    (ha : a.mgmt_affecting = "False") :
    ∀ (l1 l2 : List Alarm),
      filterAlarms true ignoreAlarms (l1 ++ a :: l2) =
        filterAlarms true ignoreAlarms (l1 ++ l2)
  | [], l2 => by simp [filterAlarms, ha]
  | b :: l1, l2 => by
    have ih := filterAlarms_drop_false ignoreAlarms a ha l1 l2
    simp only [List.cons_append, filterAlarms, List.append_eq, ih]

/-! ## Claims -/

/--
**C6.** For the relaxed-restriction alarm filter shared by `QueryAlarmsStep`,
`WaitDataSyncStep` and `WaitAlarmsClearStep`: (1) an alarm whose
`mgmt_affecting` field equals `"False"` is never a member of the residual
alarm list, regardless of the ignore list; (2) removing such an alarm from
the response leaves the residual list unchanged, so it can never cause a
`fail_on_alarms` failure; (3) the literal spec scenario (alarms `100.101`
with `mgmt_affecting="False"` and `200.005` with `mgmt_affecting="True"`,
ignore list `["200.005"]`, relaxed, `fail_on_alarms=true`) succeeds.
-/
theorem C6_relaxed_never_residual :
    (∀ (ignoreAlarms : List String) (alarms : List Alarm) (a : Alarm),
        a ∈ filterAlarms true ignoreAlarms alarms →
          a.mgmt_affecting ≠ "False") ∧
    (∀ (ignoreAlarms : List String) (l1 l2 : List Alarm) (a : Alarm),
        a.mgmt_affecting = "False" →
        filterAlarms true ignoreAlarms (l1 ++ a :: l2) =
          filterAlarms true ignoreAlarms (l1 ++ l2)) ∧
    queryAlarmsOutcome true
      (filterAlarms true ["200.005"]
        [{ alarm_id := "100.101", alarm_uuid := "ua", mgmt_affecting := "False" },
         { alarm_id := "200.005", alarm_uuid := "ub", mgmt_affecting := "True" }]) =
      StepResult.success :=
  ⟨fun ig alarms a h => mem_filterAlarms_relaxed ig alarms a h,
   fun ig l1 l2 a ha => filterAlarms_drop_false ig a ha l1 l2,
   by decide⟩

/-- Witness for C6: the filter output on a concrete relaxed query contains
only alarms with `mgmt_affecting ≠ "False"`. -/
theorem C6_witness :
    ({ alarm_id := "200.005", alarm_uuid := "ub", mgmt_affecting := "True" } :
      Alarm).mgmt_affecting ≠ "False" :=
  C6_relaxed_never_residual.1 []
    [{ alarm_id := "200.005", alarm_uuid := "ub", mgmt_affecting := "True" }]
    { alarm_id := "200.005", alarm_uuid := "ub", mgmt_affecting := "True" }
    (by decide)

/--
**C9 counterexample.** The claim says `process_main` exits with a non-zero
status on every failure, including missing OpenStack credential parameters.
On the concrete input with no credential options and an empty environment,
the code prints "Authentication URI not given" and returns normally, so the
process exits with status 0, refuting the claim.
-/
theorem C9_counterexample :
    (processMain CliArgs.none CliArgs.none CmdOutcome.ok).1 = 0 ∧
    (processMain CliArgs.none CliArgs.none CmdOutcome.ok).2 =
      ["Authentication URI not given"] :=
  ⟨rfl, rfl⟩

/--
**C9 as amended.** `process_main` exits with status 1 (printing the message)
when the dispatched command raises an exception; a keyboard interrupt prints
a notice and exits with status 0; a required credential missing from both
the arguments and the environment prints a notice and also exits with
status 0 (not a non-zero status).
-/
theorem C9_exit_codes (args env : CliArgs) (msg : String)
    (h1 : (mergeArgs args env).osAuthUrl.isNone = false)
    (h2 : (mergeArgs args env).osProjectName.isNone = false)
    (h3 : (mergeArgs args env).osProjectDomainName.isNone = false)
    (h4 : (mergeArgs args env).osUsername.isNone = false)
    (h5 : (mergeArgs args env).osPassword.isNone = false)
    (h6 : (mergeArgs args env).osUserDomainName.isNone = false)
    (h7 : (mergeArgs args env).osRegionName.isNone = false)
    (h8 : (mergeArgs args env).osInterface.isNone = false) :
    processMain args env (CmdOutcome.raises msg) = (1, [msg]) ∧
    processMain args env CmdOutcome.interrupt =
      (0, ["Keyboard Interrupt received."]) ∧
    processMain CliArgs.none CliArgs.none CmdOutcome.ok =
      (0, ["Authentication URI not given"]) := by
  refine ⟨?_, ?_, rfl⟩ <;> simp [processMain, h1, h2, h3, h4, h5, h6, h7, h8]

/-- Witness for C9: a run with all credentials given on the command line. -/
theorem C9_witness :
    processMain
      { osAuthUrl := some "http://auth", osProjectName := some "p",
        osProjectDomainName := some "pd", osUsername := some "u",
        osPassword := some "pw", osUserDomainName := some "ud",
        osRegionName := some "r", osInterface := some "i" }
      CliArgs.none (CmdOutcome.raises "boom") = (1, ["boom"]) ∧
    processMain
      { osAuthUrl := some "http://auth", osProjectName := some "p",
        osProjectDomainName := some "pd", osUsername := some "u",
        osPassword := some "pw", osUserDomainName := some "ud",
        osRegionName := some "r", osInterface := some "i" }
      CliArgs.none CmdOutcome.interrupt =
      (0, ["Keyboard Interrupt received."]) ∧
    processMain CliArgs.none CliArgs.none CmdOutcome.ok =
      (0, ["Authentication URI not given"]) :=
  C9_exit_codes
    { osAuthUrl := some "http://auth", osProjectName := some "p",
      osProjectDomainName := some "pd", osUsername := some "u",
      osPassword := some "pw", osUserDomainName := some "ud",
      osRegionName := some "r", osInterface := some "i" }
    CliArgs.none "boom" rfl rfl rfl rfl rfl rfl rfl rfl

/--
**C8 counterexample.** The claim says a missing entity is dropped from the
live entity set but its *name* is preserved in the step's name list, for
instance-based steps as well.  For `MigrateInstancesStep.from_dict` on a
dictionary naming instance `i-0` (uuid `u-0`, captured on `w-0`) against an
empty instance table, the rebuilt name list is empty: the missing instance's
name is dropped, refuting the claim for instance-based steps.
-/
theorem C8_counterexample :
    (migrateFromDict []
      { entityNames := ["i-0"], entityUuids := ["u-0"],
        instance_host_names := [("u-0", "w-0")] }).instanceNames = [] ∧
    ({ entityNames := ["i-0"], entityUuids := ["u-0"],
       instance_host_names := [("u-0", "w-0")] } :
         MigrateStepData).entityNames = ["i-0"] ∧
    ([] : List String) ≠ ["i-0"] :=
  ⟨rfl, rfl, by decide⟩

/--
**C8 as amended.** Deserialization re-resolves entities against the live
tables and missing entities are dropped from the live entity set.  For
host-based steps the *name* list is preserved verbatim for reporting; for
instance-based steps such as migrate-instances it is the *uuid* list that is
preserved, while the name list is re-derived from the still-resolvable
instances only, so a missing instance's name is dropped.
-/
theorem C8_from_dict_entity_resolution (table : List Host)
    (instTable : List Instance) (d : HostsStepData) (dm : MigrateStepData) :
    (hostsFromDict table d).hostNames = d.entityNames ∧
    (hostsFromDict table d).hosts = d.entityNames.filterMap (tableGet table) ∧
    (migrateFromDict instTable dm).instanceUuids = dm.entityUuids ∧
    (migrateFromDict instTable dm).instanceNames =
      (dm.entityUuids.filterMap (instTableGet instTable)).map
        (fun i => i.name) := by
  refine ⟨rfl, ?_, rfl, ?_⟩ <;>
    simp [hostsFromDict, migrateFromDict, resolveHosts_eq_filterMap,
      resolveInstances_eq_filterMap]

/--
**C4 counterexample.** In the literal spec scenario the step captured `i-0`
on `w-0` and `i-0` has since moved to `w-1`, no other instance remaining on
`w-0`.  `MigrateInstancesStep.apply` then takes the `_all_instances_migrated`
early exit (no instance remains on any captured source host) and returns
SUCCESS with no director call, not the claimed FAILED with a moved-instance
reason.
-/
theorem C4_counterexample :
    migrateApply
      { migrateInit [{ uuid := "u-0", name := "i-0", hostName := "w-0",
                       locked := false, enabled := true }] with
        instances := [{ uuid := "u-0", name := "i-0", hostName := "w-1",
                        locked := false, enabled := true }] }
      [{ uuid := "u-0", name := "i-0", hostName := "w-1",
         locked := false, enabled := true }]
      OpResult.inprogress = (false, StepResult.success, "") := by
  rfl

/--
**C4 as amended.** If some captured source host still holds an instance (so
the all-migrated early exit does not fire) and a held instance has moved
since the step was created, `MigrateInstancesStep.apply` returns FAILED
without a director call, with a reason containing
`"instance <name> has moved from <captured> to <current>"`; when every
captured source host is already free of instances, apply instead returns
SUCCESS immediately (see the counterexample).
-/
theorem C4_moved_instance_rejected (s : MigrateState)
    (instTable : List Instance) (op : OpResult) (i : Instance)
    (capturedHost : String)
    (hnot : allInstancesMigrated instTable s.instanceHostNames = false)
    (hmoved : findMoved s.instanceHostNames s.instances =
      some (i, capturedHost)) :
    migrateApply s instTable op =
      (false, StepResult.failed, movedReason i capturedHost) ∧
    movedReason i capturedHost =
      ("instance " ++ i.name ++ " has moved from " ++ capturedHost ++ " to "
        ++ i.hostName) ++ " after strategy created" := by
  exact ⟨by simp [migrateApply, hnot, hmoved], rfl⟩

/-- Witness for C4: instance `i-0` moved from `w-0` to `w-1` while another
instance `i-1` still occupies `w-0`; apply fails with the moved reason. -/
theorem C4_witness :
    migrateApply
      { migrateInit [{ uuid := "u-0", name := "i-0", hostName := "w-0",
                       locked := false, enabled := true }] with
        instances := [{ uuid := "u-0", name := "i-0", hostName := "w-1",
                        locked := false, enabled := true }] }
      [{ uuid := "u-0", name := "i-0", hostName := "w-1",
         locked := false, enabled := true },
       { uuid := "u-1", name := "i-1", hostName := "w-0",
         locked := false, enabled := true }]
      OpResult.inprogress =
      (false, StepResult.failed,
        movedReason
          { uuid := "u-0", name := "i-0", hostName := "w-1",
            locked := false, enabled := true } "w-0") ∧
    movedReason
      { uuid := "u-0", name := "i-0", hostName := "w-1",
        locked := false, enabled := true } "w-0" =
      ("instance " ++ "i-0" ++ " has moved from " ++ "w-0" ++ " to "
        ++ "w-1") ++ " after strategy created" :=
  C4_moved_instance_rejected _ _ OpResult.inprogress _ _ (by decide) (by decide)

/--
**C5 counterexample.** When `w-0` reports its firmware update completed and
`w-1` reports it *failed* through the monitoring get-host callback, both
hosts are marked done in `_host_completed` (the step completes FAILED naming
`w-1`), so `FwUpdateHostsStep.abort` collects no hosts at all: the abort
step is `fw-update-abort-hosts([])`, not the claimed
`fw-update-abort-hosts([w-1])`.
-/
theorem C5_counterexample :
    fwAbortHosts
      (fwGetHostCallback
        (fwGetHostCallback
          (fwInit [{ name := "w-0", uuid := "u0", locked := true, enabled := true },
                   { name := "w-1", uuid := "u1", locked := true, enabled := true }])
          "w-0" (some DeviceImageUpdate.completedLabel)).1
        "w-1" (some DeviceImageUpdate.failedLabel)).1 = [] ∧
    ([] : List Host) ≠
      [{ name := "w-1", uuid := "u1", locked := true, enabled := true }] :=
  ⟨rfl, by decide⟩

/--
**C5 as amended.** The abort chain of `fw-update-hosts([w-0,w-1])` targets
exactly the hosts whose `_host_completed` entry is not yet done.  With `w-0`
completed via the status poll: if `w-1`'s failure also arrives via the
status poll, `w-1` is marked done (the step completes FAILED naming `w-1`)
and the abort step targets no hosts; if instead the failure arrives as a
`HOST_FW_UPDATE_FAILED` event (which completes the step FAILED without
touching `_host_completed`), the abort step targets exactly `[w-1]` — and
`w-0` is excluded in both cases.
-/
theorem C5_abort_chain :
    ((fwGetHostCallback
        (fwGetHostCallback
          (fwInit [{ name := "w-0", uuid := "u0", locked := true, enabled := true },
                   { name := "w-1", uuid := "u1", locked := true, enabled := true }])
          "w-0" (some DeviceImageUpdate.completedLabel)).1
        "w-1" (some DeviceImageUpdate.failedLabel)).2 =
      some (StepResult.failed, "Firmware update failed ; w-1 ") ∧
    fwAbortHosts
      (fwGetHostCallback
        (fwGetHostCallback
          (fwInit [{ name := "w-0", uuid := "u0", locked := true, enabled := true },
                   { name := "w-1", uuid := "u1", locked := true, enabled := true }])
          "w-0" (some DeviceImageUpdate.completedLabel)).1
        "w-1" (some DeviceImageUpdate.failedLabel)).1 = []) ∧
    ((fwHandleUpdateFailed
        (fwGetHostCallback
          (fwInit [{ name := "w-0", uuid := "u0", locked := true, enabled := true },
                   { name := "w-1", uuid := "u1", locked := true, enabled := true }])
          "w-0" (some DeviceImageUpdate.completedLabel)).1
        (some { name := "w-1", uuid := "u1", locked := true, enabled := true })).2 =
      some (StepResult.failed, "fw image update failed") ∧
    fwAbortHosts
      (fwHandleUpdateFailed
        (fwGetHostCallback
          (fwInit [{ name := "w-0", uuid := "u0", locked := true, enabled := true },
                   { name := "w-1", uuid := "u1", locked := true, enabled := true }])
          "w-0" (some DeviceImageUpdate.completedLabel)).1
        (some { name := "w-1", uuid := "u1", locked := true, enabled := true })).1 =
      [{ name := "w-1", uuid := "u1", locked := true, enabled := true }]) :=
  ⟨⟨rfl, rfl⟩, ⟨rfl, rfl⟩⟩

theorem totalHostsLocked_eq_length (table : List Host) (ns : List String)
    (h : totalHostsLocked table true ns = (ns.length : Int)) :
    ∀ n ∈ ns, ∃ hh, tableGet table n = some hh ∧
      hh.locked = true ∧ hh.enabled = false := by
  intro n hn
  obtain ⟨x, hget, hpx⟩ := countOrMissing_eq_length _ _ ns h n hn
  refine ⟨x, hget, ?_, ?_⟩ <;> revert hpx <;>
    cases x.locked <;> cases x.enabled <;> simp

/--
**C2.** For a lock-hosts step with `wait_until_disabled=true`: whenever the
step decides SUCCESS — from `apply` (either the already-satisfied early exit
or a synchronously completed `lock_hosts` director operation, the latter
modelled from the spec as completing only with all targets locked and
disabled) or from a `HOST_STATE_CHANGED`/`HOST_AUDIT` event — every target
host is locked and disabled in the table snapshot consulted.
-/
theorem C2_lock_success_locked_disabled (s : LockState) (table : List Host)
    (instTable : List Instance) (op : OpResult)
    (hwud : s.waitUntilDisabled = true)
    (hdir : op = OpResult.completed →
      ∀ n ∈ s.hostNames, ∃ h, tableGet table n = some h ∧
        h.locked = true ∧ h.enabled = false) :
    ((lockApply s table instTable op).2.1 = StepResult.success →
      ∀ n ∈ s.hostNames, ∃ h, tableGet table n = some h ∧
        h.locked = true ∧ h.enabled = false) ∧
    (∀ (e : LockEvent) (s2 : LockState) (msg : String),
      e.isAuditLike = true →
      lockHandleEvent s e = (s2, some (StepResult.success, msg)) →
      ∀ n ∈ s.hostNames, ∃ h, tableGet e.snapshot n = some h ∧
        h.locked = true ∧ h.enabled = false) := by
  have hbody : ∀ (now : Nat) (etable : List Host) (s2 : LockState)
      (msg : String),
      lockAuditBody s now etable = (s2, some (StepResult.success, msg)) →
      ∀ n ∈ s.hostNames, ∃ h, tableGet etable n = some h ∧
        h.locked = true ∧ h.enabled = false := by
    intro now etable s2 msg hev
    by_cases hm1 : totalHostsLocked etable true s.hostNames = -1
    · simp [lockAuditBody, hwud, hm1] at hev
    · by_cases hlen : totalHostsLocked etable true s.hostNames =
          (s.hostNames.length : Int)
      · exact totalHostsLocked_eq_length etable s.hostNames hlen
      · simp [lockAuditBody, hwud, hm1, hlen] at hev
  constructor
  · intro hsucc
    by_cases hcond : (s.hostNames.length : Int) =
        totalHostsLocked table s.waitUntilDisabled s.hostNames
    · rw [hwud] at hcond
      exact totalHostsLocked_eq_length table s.hostNames hcond.symm
    · by_cases hinst : instancesNotLockedDisabled instTable s.hostNames = []
      · cases op with
        | inprogress => simp [lockApply, hcond, hinst] at hsucc
        | failed r => simp [lockApply, hcond, hinst] at hsucc
        | completed => exact hdir rfl
      · simp [lockApply, hcond, hinst] at hsucc
  · intro e s2 msg haudit hev
    cases e with
    | hostStateChanged now etable => exact hbody now etable s2 msg hev
    | hostAudit now etable => exact hbody now etable s2 msg hev
    | hostLockFailed now eventHost => simp [LockEvent.isAuditLike] at haudit

/-- Witness for C2: a single already-locked-and-disabled host; apply
succeeds and the host is locked and disabled. -/
theorem C2_witness :
    ∃ h, tableGet [{ name := "w-0", uuid := "u0", locked := true, enabled := false }]
      "w-0" = some h ∧
      h.locked = true ∧ h.enabled = false :=
  (C2_lock_success_locked_disabled
    (lockInit
      [{ name := "w-0", uuid := "u0", locked := false, enabled := true }] true)
    [{ name := "w-0", uuid := "u0", locked := true, enabled := false }]
    [] OpResult.inprogress rfl
    (fun hco => absurd hco (by decide))).1 rfl "w-0" (by decide)

/--
**C7 counterexample.** The claim quantifies over *every* step whose
completion condition is already satisfied at apply time.  It fails for the
host-services steps: here a disable-host-services step whose completion
condition is already satisfied — every target host reports the service
DISABLED (the count equals the target count and the first audit-like event
would complete SUCCESS) — still has `apply` invoke the
`disable_host_services` director verb and return WAIT, not SUCCESS without a
director call; `EnableHostServicesStep.apply` likewise always invokes.
-/
theorem C7_counterexample :
    totalHostsServicesDisabled [(⟨"w-0", "u0", true, false⟩ : Host)]
      (fun _ _ => HostServiceState.disabled) "compute" ["w-0"] = 1 ∧
    disableHostServicesAuditBody
      (hostServicesInit [(⟨"w-0", "u0", true, false⟩ : Host)] "compute")
      [(⟨"w-0", "u0", true, false⟩ : Host)]
      (fun _ _ => HostServiceState.disabled) =
      some (StepResult.success, "") ∧
    disableHostServicesApply
      (hostServicesInit [(⟨"w-0", "u0", true, false⟩ : Host)] "compute")
      OpResult.inprogress = (true, StepResult.wait, "") ∧
    (enableHostServicesApply
      (hostServicesInit [(⟨"w-0", "u0", true, false⟩ : Host)] "compute")
      OpResult.inprogress).1 = true := by
  refine ⟨rfl, rfl, rfl, rfl⟩

/--
**C7 as amended.** The already-satisfied early exit holds for the steps that
check their completion condition in `apply`: an unlock-hosts step with every
target already unlocked and enabled, a lock-hosts step with every target
already locked (and disabled when `wait_until_disabled`), and a
stop-instances step with every target instance already locked and disabled
each return SUCCESS with no director call (the `false` first component).  It
does **not** hold universally: `DisableHostServicesStep.apply` and
`EnableHostServicesStep.apply` always invoke their director verb (the `true`
first component), with no early exit even when every target already reports
the required service state.
-/
theorem C7_presatisfied_apply_no_call (uS : UnlockState) (lS : LockState)
    (mS : MigrateState) (table : List Host) (instTable : List Instance)
    (op1 op2 op3 : OpResult)
    (hu : ∀ n ∈ uS.hostNames, ∃ h, tableGet table n = some h ∧
      h.locked = false ∧ h.enabled = true)
    (hl : ∀ n ∈ lS.hostNames, ∃ h, tableGet table n = some h ∧
      h.locked = true ∧ (lS.waitUntilDisabled = true → h.enabled = false))
    (hs : ∀ u ∈ mS.instanceUuids, ∃ i, instTableGet instTable u = some i ∧
      i.locked = true ∧ i.enabled = false) :
    unlockApply uS table op1 = (false, StepResult.success, "") ∧
    lockApply lS table instTable op2 = (false, StepResult.success, "") ∧
    stopApply mS instTable op3 = (false, StepResult.success, "") ∧
    (∀ (dS : HostServicesState) (op4 : OpResult),
      (disableHostServicesApply dS op4).1 = true) ∧
    (∀ (eS : HostServicesState) (op5 : OpResult),
      (enableHostServicesApply eS op5).1 = true) := by
  refine ⟨?_, ?_, ?_, ?_, ?_⟩
  · have hcnt : totalHostsUnlockedEnabled table uS.hostNames =
        (uS.hostNames.length : Int) := by
      refine countOrMissing_eq_length_of _ _ _ (fun n hn => ?_)
      obtain ⟨h, hg, hlk, hen⟩ := hu n hn
      exact ⟨h, hg, by simp [hlk, hen]⟩
    unfold unlockApply
    rw [hcnt]
    simp
  · have hcnt : totalHostsLocked table lS.waitUntilDisabled lS.hostNames =
        (lS.hostNames.length : Int) := by
      refine countOrMissing_eq_length_of _ _ _ (fun n hn => ?_)
      obtain ⟨h, hg, hlk, hen⟩ := hl n hn
      refine ⟨h, hg, ?_⟩
      cases hwud : lS.waitUntilDisabled with
      | true => simp [hlk, hen hwud]
      | false => simp [hlk]
    unfold lockApply
    rw [hcnt]
    simp
  · have hcnt : totalInstancesLockedDisabled instTable mS.instanceUuids =
        (mS.instanceUuids.length : Int) := by
      refine countOrMissing_eq_length_of _ _ _ (fun u hu2 => ?_)
      obtain ⟨i, hg, hlk, hen⟩ := hs u hu2
      exact ⟨i, hg, by simp [hlk, hen]⟩
    unfold stopApply
    rw [hcnt]
    simp
  · intro dS op4
    cases op4 <;> rfl
  · intro eS op5
    cases op5 <;> rfl

/-- Witness for C7: one already-unlocked-enabled host, one already
locked-and-disabled host, one already locked-and-disabled instance — and
concrete host-services steps whose apply invokes the director. -/
theorem C7_witness :
    unlockApply
      (unlockInit
        [{ name := "w-0", uuid := "u0", locked := true, enabled := false }] 2 120)
      [{ name := "w-0", uuid := "u0", locked := false, enabled := true },
       { name := "w-1", uuid := "u1", locked := true, enabled := false }]
      OpResult.inprogress = (false, StepResult.success, "") ∧
    lockApply
      (lockInit
        [{ name := "w-1", uuid := "u1", locked := false, enabled := true }] true)
      [{ name := "w-0", uuid := "u0", locked := false, enabled := true },
       { name := "w-1", uuid := "u1", locked := true, enabled := false }]
      [{ uuid := "i0", name := "vm-0", hostName := "w-1", locked := true,
         enabled := false }]
      OpResult.inprogress = (false, StepResult.success, "") ∧
    stopApply
      (migrateInit
        [{ uuid := "i0", name := "vm-0", hostName := "w-1", locked := false,
           enabled := true }])
      [{ uuid := "i0", name := "vm-0", hostName := "w-1", locked := true,
         enabled := false }]
      OpResult.inprogress = (false, StepResult.success, "") ∧
    (disableHostServicesApply
      (hostServicesInit [(⟨"w-1", "u1", true, false⟩ : Host)] "compute")
      OpResult.completed).1 = true ∧
    (enableHostServicesApply
      (hostServicesInit [(⟨"w-1", "u1", true, false⟩ : Host)] "compute")
      OpResult.completed).1 = true := by
  have h := C7_presatisfied_apply_no_call
    (unlockInit
      [{ name := "w-0", uuid := "u0", locked := true, enabled := false }] 2 120)
    (lockInit
      [{ name := "w-1", uuid := "u1", locked := false, enabled := true }] true)
    (migrateInit
      [{ uuid := "i0", name := "vm-0", hostName := "w-1", locked := false,
         enabled := true }])
    [{ name := "w-0", uuid := "u0", locked := false, enabled := true },
     { name := "w-1", uuid := "u1", locked := true, enabled := false }]
    [{ uuid := "i0", name := "vm-0", hostName := "w-1", locked := true,
       enabled := false }]
    OpResult.inprogress OpResult.inprogress OpResult.inprogress
    (by decide) (by decide) (by decide)
  exact ⟨h.1, h.2.1, h.2.2.1,
    h.2.2.2.1 (hostServicesInit [(⟨"w-1", "u1", true, false⟩ : Host)] "compute")
      OpResult.completed,
    h.2.2.2.2 (hostServicesInit [(⟨"w-1", "u1", true, false⟩ : Host)] "compute")
      OpResult.completed⟩

theorem lookupRetry_cons (p : String × Nat) (rs : List (String × Nat))
    (n : String) :
    lookupRetry (p :: rs) n = if p.1 == n then p.2 else lookupRetry rs n := by
  cases hpb : (p.1 == n) with
  | true => simp [lookupRetry, List.find?_cons_of_pos _ hpb, hpb]
  | false =>
    have hneg : ¬((fun (q : String × Nat) => q.1 == n) p = true) := by
      simp [hpb]
    simp [lookupRetry, List.find?_cons_of_neg _ hneg, hpb]

theorem decRetry_cons (p : String × Nat) (rs : List (String × Nat))
    (n : String) :
    decRetry (p :: rs) n =
      (if p.1 == n then (p.1, p.2 - 1) else p) :: decRetry rs n := by
  simp [decRetry]

theorem sumRetries_cons (p : String × Nat) (rs : List (String × Nat)) :
    sumRetries (p :: rs) = p.2 + sumRetries rs := by
  simp [sumRetries]

theorem sumRetries_decRetry_le (n : String) :
    ∀ rs : List (String × Nat), sumRetries (decRetry rs n) ≤ sumRetries rs
  | [] => by simp [decRetry, sumRetries]
  | p :: rs => by
    have ih := sumRetries_decRetry_le n rs
    rw [decRetry_cons, sumRetries_cons, sumRetries_cons]
    by_cases hp : (p.1 == n) = true
    · rw [if_pos hp]
      simp only
      omega
    · rw [if_neg hp]
      omega

theorem sumRetries_decRetry_lt (n : String) :
    ∀ rs : List (String × Nat), 0 < lookupRetry rs n →
      sumRetries (decRetry rs n) < sumRetries rs
  | [] => by simp [lookupRetry]
  | p :: rs => by
    intro hpos
    rw [lookupRetry_cons] at hpos
    rw [decRetry_cons, sumRetries_cons, sumRetries_cons]
    by_cases hp : (p.1 == n) = true
    · rw [if_pos hp] at hpos ⊢
      have := sumRetries_decRetry_le n rs
      simp only
      omega
    · rw [if_neg hp] at hpos ⊢
      have := sumRetries_decRetry_lt n rs hpos
      omega

theorem unlockAuditBody_potential (s : UnlockState) (now : Nat)
    (table : List Host) (opFailed : Bool) :
    (if (unlockAuditBody s now table opFailed).2.1 then 1 else 0) +
      sumRetries (unlockAuditBody s now table opFailed).1.retries +
      (if (unlockAuditBody s now table opFailed).1.retryRequested then 1 else 0) ≤
    sumRetries s.retries + (if s.retryRequested then 1 else 0) := by
  by_cases h1 : totalHostsUnlockedEnabled table s.hostNames = -1
  · simp [unlockAuditBody, h1]
  · by_cases h2 : totalHostsUnlockedEnabled table s.hostNames =
        (s.hostNames.length : Int)
    · simp [unlockAuditBody, h1, h2]
    · by_cases h3 : s.retryRequested = true
      · by_cases h4 : s.retryDelay ≤ (now - s.waitTime) / 1000
        · cases opFailed <;> simp [unlockAuditBody, h1, h2, h3, h4] <;> omega
        · simp [unlockAuditBody, h1, h2, h3, h4]
      · simp [unlockAuditBody, h1, h2, h3]

theorem unlock_step_potential (s : UnlockState) (e : UnlockEvent) :
    (if (unlockHandleEvent s e).2.1 then 1 else 0) +
      sumRetries (unlockHandleEvent s e).1.retries +
      (if (unlockHandleEvent s e).1.retryRequested then 1 else 0) ≤
    sumRetries s.retries + (if s.retryRequested then 1 else 0) := by
  cases e with
  | hostStateChanged now table opFailed =>
    exact unlockAuditBody_potential s now table opFailed
  | hostAudit now table opFailed =>
    exact unlockAuditBody_potential s now table opFailed
  | hostUnlockFailed now eventHost =>
    cases eventHost with
    | none => simp [unlockHandleEvent]
    | some host =>
      by_cases hc : host.name ∈ s.hostNames
      · by_cases hl :
            (host.locked && decide (0 < lookupRetry s.retries host.name)) = true
        · have hl2 := hl
          rw [Bool.and_eq_true] at hl2
          have hpos : 0 < lookupRetry s.retries host.name := by
            simpa using hl2.2
          have hdec := sumRetries_decRetry_lt host.name s.retries hpos
          simp [unlockHandleEvent, hc, hl, unlockTriggerRetry]
          omega
        · simp [unlockHandleEvent, hc, hl]
      · simp [unlockHandleEvent, hc]

theorem unlockRunCount_le (s : UnlockState) :
    ∀ es : List UnlockEvent,
      unlockRunCount s es ≤
        sumRetries s.retries + (if s.retryRequested then 1 else 0)
  | [] => by simp [unlockRunCount]
  | e :: es => by
    have hstep := unlock_step_potential s e
    have ih := unlockRunCount_le (unlockHandleEvent s e).1 es
    simp only [unlockRunCount]
    omega

theorem sumRetries_init (hosts : List Host) (rc : Nat) :
    sumRetries (hosts.map (fun h => (h.name, rc))) = hosts.length * rc := by
  induction hosts with
  | nil => simp [sumRetries]
  | cons h hs ih =>
    rw [List.map_cons, sumRetries_cons, ih, List.length_cons]
    ring

/--
**C1 counterexample.** The claim bounds the unlock invocations *per host* by
`1 + retry_count`.  For `unlock-hosts([w-0, w-1], retry_count=1)` with both
hosts staying locked: after `HOST_UNLOCK_FAILED(w-0)` a retry re-issues
`unlock_hosts` for *all* hosts, and after `HOST_UNLOCK_FAILED(w-1)` a second
retry re-issues again — so host `w-1` is named in 3 unlock invocations
(apply plus two retries) although `1 + retry_count = 2`.  Host fields read
`(name, uuid, locked, enabled)`.
-/
theorem C1_counterexample :
    ("w-1" ∈ (unlockInit
      [(⟨"w-0", "u0", true, false⟩ : Host), ⟨"w-1", "u1", true, false⟩]
      1 120).hostNames) ∧
    (if (unlockApply
          (unlockInit
            [(⟨"w-0", "u0", true, false⟩ : Host), ⟨"w-1", "u1", true, false⟩]
            1 120)
          [⟨"w-0", "u0", true, false⟩, ⟨"w-1", "u1", true, false⟩]
          OpResult.inprogress).1 then 1 else 0) +
      unlockRunCount
        (unlockInit
          [(⟨"w-0", "u0", true, false⟩ : Host), ⟨"w-1", "u1", true, false⟩]
          1 120)
        [UnlockEvent.hostUnlockFailed 1000 (some ⟨"w-0", "u0", true, false⟩),
         UnlockEvent.hostAudit 121000
           [⟨"w-0", "u0", true, false⟩, ⟨"w-1", "u1", true, false⟩] false,
         UnlockEvent.hostUnlockFailed 130000 (some ⟨"w-1", "u1", true, false⟩),
         UnlockEvent.hostAudit 250000
           [⟨"w-0", "u0", true, false⟩, ⟨"w-1", "u1", true, false⟩] false]
      = 3 ∧
    ¬(3 ≤ 1 + 1) := by
  refine ⟨by decide, by decide, by decide⟩

/--
**C1 as amended.** (1) Over any event sequence, the total number of
`unlock_hosts` invocations (each naming every target host, so also the
per-host count) is at most `1 + (number of hosts) × retry_count` — every
retry re-issue consumes one entry of some host's retry budget, but budgets
of *different* hosts pool together, so the per-host bound of the original
claim is `1 + retry_count` only for single-host steps.  (2) A retry
re-issue happens only when a retry was requested and at least `retry_delay`
seconds of monotonic time have elapsed since `_wait_time`.  (3) The
`HOST_UNLOCK_FAILED` notification that triggers a retry sets `_wait_time` to
its own monotonic time and requests the retry, so the re-issue never fires
less than `retry_delay` seconds after the triggering notification.
-/
theorem C1_unlock_retry_budget_and_delay (hosts : List Host)
    (retryCount retryDelay : Nat) (table : List Host) (op : OpResult)
    (es : List UnlockEvent) :
    ((if (unlockApply (unlockInit hosts retryCount retryDelay) table op).1
        then 1 else 0) +
      unlockRunCount (unlockInit hosts retryCount retryDelay) es ≤
      1 + hosts.length * retryCount) ∧
    (∀ (s : UnlockState) (now : Nat) (t2 : List Host) (opF : Bool),
      (unlockAuditBody s now t2 opF).2.1 = true → s.waitTime ≤ now →
      s.retryRequested = true ∧ s.retryDelay * 1000 + s.waitTime ≤ now) ∧
    (∀ (s : UnlockState) (now : Nat) (h : Host),
      h.locked = true → s.hostNames.contains h.name = true →
      0 < lookupRetry s.retries h.name →
      unlockHandleEvent s (UnlockEvent.hostUnlockFailed now (some h)) =
        (unlockTriggerRetry s h.name now, false, none) ∧
      (unlockTriggerRetry s h.name now).waitTime = now ∧
      (unlockTriggerRetry s h.name now).retryRequested = true) := by
  refine ⟨?_, ?_, ?_⟩
  · have hev := unlockRunCount_le (unlockInit hosts retryCount retryDelay) es
    have hsum : sumRetries (unlockInit hosts retryCount retryDelay).retries =
        hosts.length * retryCount := sumRetries_init hosts retryCount
    have hflag : (if (unlockInit hosts retryCount retryDelay).retryRequested
        then (1 : Nat) else 0) = 0 := rfl
    rw [hsum, hflag] at hev
    split <;> omega
  · intro s now t2 opF hinv hwt
    by_cases h1 : totalHostsUnlockedEnabled t2 s.hostNames = -1
    · simp [unlockAuditBody, h1] at hinv
    · by_cases h2 : totalHostsUnlockedEnabled t2 s.hostNames =
          (s.hostNames.length : Int)
      · simp [unlockAuditBody, h1, h2] at hinv
      · by_cases h3 : s.retryRequested = true
        · by_cases h4 : s.retryDelay ≤ (now - s.waitTime) / 1000
          · refine ⟨h3, ?_⟩
            have := (Nat.le_div_iff_mul_le (by norm_num)).mp h4
            omega
          · simp [unlockAuditBody, h1, h2, h3, h4] at hinv
        · simp [unlockAuditBody, h1, h2, h3] at hinv
  · intro s now h hlk hc hpos
    have hmem : h.name ∈ s.hostNames := by simpa using hc
    refine ⟨?_, rfl, rfl⟩
    simp [unlockHandleEvent, hmem, hlk, hpos]

/-- Witness for C1: a single-host run stays within the budget; a concrete
retry re-issue fires exactly 120 s after the triggering failure, which set
the wait clock to its own time. -/
theorem C1_witness :
    ((if (unlockApply
          (unlockInit [(⟨"w-0", "u0", true, false⟩ : Host)] 1 120)
          [⟨"w-0", "u0", true, false⟩] OpResult.inprogress).1
        then 1 else 0) +
      unlockRunCount (unlockInit [(⟨"w-0", "u0", true, false⟩ : Host)] 1 120)
        [] ≤ 1 + 1 * 1) ∧
    (({ hostNames := ["w-0"], hostUuids := ["u0"], retryCount := 1,
        retryDelay := 120, retries := [("w-0", 0)], waitTime := 1000,
        retryRequested := true } : UnlockState).retryRequested = true ∧
      120 * 1000 + 1000 ≤ 121000) ∧
    (unlockHandleEvent (unlockInit [(⟨"w-0", "u0", true, false⟩ : Host)] 1 120)
      (UnlockEvent.hostUnlockFailed 1000 (some ⟨"w-0", "u0", true, false⟩)) =
      (unlockTriggerRetry
        (unlockInit [(⟨"w-0", "u0", true, false⟩ : Host)] 1 120) "w-0" 1000,
        false, none) ∧
    (unlockTriggerRetry
      (unlockInit [(⟨"w-0", "u0", true, false⟩ : Host)] 1 120)
      "w-0" 1000).waitTime = 1000 ∧
    (unlockTriggerRetry
      (unlockInit [(⟨"w-0", "u0", true, false⟩ : Host)] 1 120)
      "w-0" 1000).retryRequested = true) := by
  refine ⟨(C1_unlock_retry_budget_and_delay
      [⟨"w-0", "u0", true, false⟩] 1 120 [⟨"w-0", "u0", true, false⟩]
      OpResult.inprogress []).1, ⟨?_, by decide⟩, ?_⟩
  · exact ((C1_unlock_retry_budget_and_delay [] 1 120 [] OpResult.inprogress
      []).2.1
      { hostNames := ["w-0"], hostUuids := ["u0"], retryCount := 1,
        retryDelay := 120, retries := [("w-0", 0)], waitTime := 1000,
        retryRequested := true }
      121000 [⟨"w-0", "u0", true, false⟩] false (by decide) (by decide)).1
  · exact (C1_unlock_retry_budget_and_delay [] 1 120 [] OpResult.inprogress
      []).2.2
      (unlockInit [⟨"w-0", "u0", true, false⟩] 1 120) 1000
      ⟨"w-0", "u0", true, false⟩ rfl (by decide) (by decide)

theorem resolveHosts_map_name_pair (table : List Host) (rc : Nat) :
    ∀ ns : List String, (∀ n ∈ ns, (tableGet table n).isSome = true) →
      (resolveHosts table ns).map (fun h => (h.name, rc)) =
        ns.map (fun n => (n, rc))
  | [] => by intro _; simp [resolveHosts]
  | n :: ns => by
    intro hall
    have hn := hall n (by simp)
    obtain ⟨h, hget⟩ := Option.isSome_iff_exists.mp hn
    have ih := resolveHosts_map_name_pair table rc ns
      (fun m hm => hall m (by simp [hm]))
    simp [resolveHosts, hget, ih, tableGet_name table n h hget]

theorem lookupRetry_map_const (rc : Nat) :
    ∀ (ns : List String) (n : String), n ∈ ns →
      lookupRetry (ns.map (fun m => (m, rc))) n = rc
  | [], n => by simp
  | m :: ns, n => by
    intro hmem
    rw [List.map_cons, lookupRetry_cons]
    by_cases hm : (m == n) = true
    · rw [if_pos hm]
    · rw [if_neg hm]
      rcases List.mem_cons.mp hmem with he | he
      · exact absurd (by simp [he]) hm
      · exact lookupRetry_map_const rc ns n he

/--
**C3 counterexample.** The claim says a rehydrated unlock-hosts step keeps
the same *remaining* per-host retry budget.  Take `unlock-hosts([w-0],
retry_count=2)` after one `HOST_UNLOCK_FAILED(w-0)` consumed a retry: the
live step has 1 retry left for `w-0`, but `from_dict(as_dict(step))` resets
`_retries[w-0]` to the full `retry_count = 2` (the source explicitly does
not persist `_retries`), so the budgets differ.
-/
theorem C3_counterexample :
    lookupRetry
      ((unlockHandleEvent (unlockInit [(⟨"w-0", "u0", true, false⟩ : Host)] 2 120)
        (UnlockEvent.hostUnlockFailed 1000
          (some ⟨"w-0", "u0", true, false⟩))).1).retries "w-0" = 1 ∧
    lookupRetry
      (unlockFromDict [(⟨"w-0", "u0", true, false⟩ : Host)]
        (unlockAsDict
          (unlockHandleEvent (unlockInit [(⟨"w-0", "u0", true, false⟩ : Host)] 2 120)
            (UnlockEvent.hostUnlockFailed 1000
              (some ⟨"w-0", "u0", true, false⟩))).1)).retries "w-0" = 2 ∧
    (1 : Nat) ≠ 2 := by
  refine ⟨by decide, by decide, by decide⟩

/--
**C3 as amended.** `from_dict(as_dict(step))` on an unlock-hosts step whose
hosts all still resolve preserves the host names and the `retry_count` /
`retry_delay` knobs, resets the non-persisted scratch (`_wait_time`,
`_retry_requested`), and resets every host's remaining retries to the full
`retry_count` — so the rehydrated step behaves identically to the original
only when the original had not consumed any retries (for a fresh step the
round-trip is the identity); a step that already consumed retries is
rehydrated with a larger (full) budget.
-/
theorem C3_unlock_roundtrip (s : UnlockState) (table : List Host)
    (hres : ∀ n ∈ s.hostNames, (tableGet table n).isSome = true) :
    (unlockFromDict table (unlockAsDict s)).hostNames = s.hostNames ∧
    (unlockFromDict table (unlockAsDict s)).retryCount = s.retryCount ∧
    (unlockFromDict table (unlockAsDict s)).retryDelay = s.retryDelay ∧
    (unlockFromDict table (unlockAsDict s)).waitTime = 0 ∧
    (unlockFromDict table (unlockAsDict s)).retryRequested = false ∧
    (∀ n ∈ s.hostNames,
      lookupRetry (unlockFromDict table (unlockAsDict s)).retries n =
        s.retryCount) ∧
    (s.waitTime = 0 → s.retryRequested = false →
      s.retries = s.hostNames.map (fun n => (n, s.retryCount)) →
      s.hostUuids = (resolveHosts table s.hostNames).map (fun h => h.uuid) →
      unlockFromDict table (unlockAsDict s) = s) := by
  have hretr : (unlockFromDict table (unlockAsDict s)).retries =
      s.hostNames.map (fun n => (n, s.retryCount)) := by
    show (resolveHosts table s.hostNames).map (fun h => (h.name, s.retryCount))
      = _
    exact resolveHosts_map_name_pair table s.retryCount s.hostNames hres
  refine ⟨rfl, rfl, rfl, rfl, rfl, ?_, ?_⟩
  · intro n hn
    rw [hretr]
    exact lookupRetry_map_const s.retryCount s.hostNames n hn
  · intro hwt hrr hr hu
    obtain ⟨hostNames, hostUuids, retryCount, retryDelay, retries, waitTime,
      retryRequested⟩ := s
    simp only at hwt hrr hr hu hretr
    subst hwt
    subst hrr
    subst hr
    subst hu
    simp only [unlockFromDict, unlockAsDict, UnlockState.mk.injEq,
      Option.getD_some]
    simp only [true_and, and_true]
    exact hretr

/-- Witness for C3: round-tripping a fresh `unlock-hosts([w-0],
retry_count=2, retry_delay=120)` step through `as_dict`/`from_dict` against
a table still containing `w-0` is the identity. -/
theorem C3_witness :
    unlockFromDict [(⟨"w-0", "u0", true, false⟩ : Host)]
      (unlockAsDict (unlockInit [(⟨"w-0", "u0", true, false⟩ : Host)] 2 120)) =
      unlockInit [(⟨"w-0", "u0", true, false⟩ : Host)] 2 120 :=
  (C3_unlock_roundtrip (unlockInit [(⟨"w-0", "u0", true, false⟩ : Host)] 2 120)
    [(⟨"w-0", "u0", true, false⟩ : Host)]
    (by decide)).2.2.2.2.2.2 rfl rfl (by decide) (by decide)

theorem lockRun_success_after (t0 : Nat) :
    ∀ (es : List LockEvent) (s : LockState),
      s.waitUntilDisabled = false →
      (s.waitTime = 0 ∨ t0 ≤ s.waitTime) →
      (∀ e ∈ es, e.isAuditLike = true → t0 ≤ e.time) →
      ∀ (msg : String) (t : Nat),
        lockRun s es = some (StepResult.success, msg, t) → t0 + 16000 ≤ t
  | [], s => by
    intro _ _ _ msg t h
    simp [lockRun] at h
  | e :: es, s => by
    intro hwud hw hts msg t hrun
    have htail : ∀ e2 ∈ es, e2.isAuditLike = true → t0 ≤ e2.time :=
      fun e2 he2 => hts e2 (by simp [he2])
    cases e with
    | hostLockFailed now eventHost =>
      cases eventHost with
      | none =>
        simp only [lockRun, lockHandleEvent] at hrun
        exact lockRun_success_after t0 es s hwud hw htail msg t hrun
      | some host =>
        by_cases hc : host.name ∈ s.hostNames
        · simp [lockRun, lockHandleEvent, hc] at hrun
        · simp only [lockRun, lockHandleEvent] at hrun
          rw [if_neg (by simpa using hc)] at hrun
          exact lockRun_success_after t0 es s hwud hw htail msg t hrun
    | hostAudit now tbl =>
      have htime : t0 ≤ now :=
        hts (LockEvent.hostAudit now tbl) (by simp) rfl
      by_cases hc1 : totalHostsLocked tbl false s.hostNames = -1
      · simp [lockRun, lockHandleEvent, lockAuditBody, hwud, hc1] at hrun
      · by_cases hw0 : s.waitTime = 0
        · have hred : lockRun s (LockEvent.hostAudit now tbl :: es) =
              lockRun { s with waitTime := now } es := by
            simp [lockRun, lockHandleEvent, lockAuditBody, hwud, hc1, hw0]
          rw [hred] at hrun
          exact lockRun_success_after t0 es { s with waitTime := now }
            (by simp [hwud]) (Or.inr (by simpa using htime)) htail msg t hrun
        · by_cases hc2 : (now - s.waitTime) / 1000 ≤ 15
          · have hred : lockRun s (LockEvent.hostAudit now tbl :: es) =
                lockRun s es := by
              simp [lockRun, lockHandleEvent, lockAuditBody, hwud, hc1, hw0,
                hc2]
            rw [hred] at hrun
            exact lockRun_success_after t0 es s hwud hw htail msg t hrun
          · by_cases hc3 : totalHostsLocked tbl false s.hostNames =
                (s.hostNames.length : Int)
            · have hteq : t = now := by
                simp [lockRun, lockHandleEvent, lockAuditBody, hwud, hc1, hw0,
                  hc2, hc3] at hrun
                exact hrun.2.symm
              have h16 : 16 ≤ (now - s.waitTime) / 1000 := by omega
              have := (Nat.le_div_iff_mul_le (k := 1000) (by norm_num)).mp h16
              have hwge : t0 ≤ s.waitTime := by
                rcases hw with h | h
                · exact absurd h hw0
                · exact h
              omega
            · have hred : lockRun s (LockEvent.hostAudit now tbl :: es) =
                  lockRun s es := by
                simp [lockRun, lockHandleEvent, lockAuditBody, hwud, hc1, hw0,
                  hc2, hc3]
              rw [hred] at hrun
              exact lockRun_success_after t0 es s hwud hw htail msg t hrun
    | hostStateChanged now tbl =>
      have htime : t0 ≤ now :=
        hts (LockEvent.hostStateChanged now tbl) (by simp) rfl
      by_cases hc1 : totalHostsLocked tbl false s.hostNames = -1
      · simp [lockRun, lockHandleEvent, lockAuditBody, hwud, hc1] at hrun
      · by_cases hw0 : s.waitTime = 0
        · have hred : lockRun s (LockEvent.hostStateChanged now tbl :: es) =
              lockRun { s with waitTime := now } es := by
            simp [lockRun, lockHandleEvent, lockAuditBody, hwud, hc1, hw0]
          rw [hred] at hrun
          exact lockRun_success_after t0 es { s with waitTime := now }
            (by simp [hwud]) (Or.inr (by simpa using htime)) htail msg t hrun
        · by_cases hc2 : (now - s.waitTime) / 1000 ≤ 15
          · have hred : lockRun s (LockEvent.hostStateChanged now tbl :: es) =
                lockRun s es := by
              simp [lockRun, lockHandleEvent, lockAuditBody, hwud, hc1, hw0,
                hc2]
            rw [hred] at hrun
            exact lockRun_success_after t0 es s hwud hw htail msg t hrun
          · by_cases hc3 : totalHostsLocked tbl false s.hostNames =
                (s.hostNames.length : Int)
            · have hteq : t = now := by
                simp [lockRun, lockHandleEvent, lockAuditBody, hwud, hc1, hw0,
                  hc2, hc3] at hrun
                exact hrun.2.symm
              have h16 : 16 ≤ (now - s.waitTime) / 1000 := by omega
              have := (Nat.le_div_iff_mul_le (k := 1000) (by norm_num)).mp h16
              have hwge : t0 ≤ s.waitTime := by
                rcases hw with h | h
                · exact absurd h hw0
                · exact h
              omega
            · have hred : lockRun s (LockEvent.hostStateChanged now tbl :: es)
                  = lockRun s es := by
                simp [lockRun, lockHandleEvent, lockAuditBody, hwud, hc1, hw0,
                  hc2, hc3]
              rw [hred] at hrun
              exact lockRun_success_after t0 es s hwud hw htail msg t hrun

theorem firstAuditTime_le (t0 : Nat) :
    ∀ es : List LockEvent, firstAuditTime es = some t0 →
      es.Pairwise (fun a b => a.time ≤ b.time) →
      ∀ e ∈ es, e.isAuditLike = true → t0 ≤ e.time
  | [] => by simp [firstAuditTime]
  | e :: es => by
    intro hf hp e2 hmem ha
    by_cases hae : e.isAuditLike = true
    · rw [firstAuditTime, if_pos hae] at hf
      have ht0 : t0 = e.time := (Option.some.inj hf).symm
      rcases List.mem_cons.mp hmem with he | he
      · subst he; omega
      · have := (List.pairwise_cons.mp hp).1 e2 he
        omega
    · rw [firstAuditTime, if_neg hae] at hf
      rcases List.mem_cons.mp hmem with he | he
      · subst he; exact absurd ha hae
      · exact firstAuditTime_le t0 es hf (List.pairwise_cons.mp hp).2 e2 he ha

/--
**C10.** For a lock-hosts step created with `wait_until_disabled=false` and
driven over any time-nondecreasing event sequence: the step never completes
SUCCESS from a `HOST_STATE_CHANGED`/`HOST_AUDIT` event until strictly more
than 15 seconds of monotonic time have elapsed since the first such event
(which starts the 15-second clock), even if every target host is already
reported locked — the source bails out while `secs_expired ≤ 15`, so
success needs `(t - t0) / 1000 ≥ 16`, i.e. at least 16000 ms.
-/
theorem C10_lock_no_early_success (hosts : List Host) (es : List LockEvent)
    (msg : String) (t t0 : Nat)
    (hfirst : firstAuditTime es = some t0)
    (hsorted : es.Pairwise (fun a b => a.time ≤ b.time))
    (hrun : lockRun (lockInit hosts false) es =
      some (StepResult.success, msg, t)) :
    t0 + 15000 < t := by
  have hts := firstAuditTime_le t0 es hfirst hsorted
  have := lockRun_success_after t0 es (lockInit hosts false) rfl
    (Or.inl rfl) hts msg t hrun
  omega

/-- Witness for C10: all hosts report locked already at the first audit
(1000 ms) but the step only succeeds at the audit at 18000 ms, more than
15 s later. -/
theorem C10_witness : (1000 : Nat) + 15000 < 18000 :=
  C10_lock_no_early_success [⟨"w-0", "u0", false, true⟩]
    [LockEvent.hostAudit 1000 [⟨"w-0", "u0", true, true⟩],
     LockEvent.hostAudit 18000 [⟨"w-0", "u0", true, true⟩]]
    "" 18000 1000 rfl (by decide) (by decide)

end Nfv
